import Mathlib

/-!
Verification development for the `s3cache` package (danilobuerger/autocert-s3-cache):
an autocert cache adapter over an S3 bucket (`s3cache.go`) together with its DSN
parser. The Go code is shallowly embedded:

* the AWS S3 client (`s3iface.S3API`) is an external collaborator; it is modelled
  as a record of three functions over an explicit client state `σ`, and the
  repository's own in-memory test double `testS3` (from `s3cache_test.go`, a
  `map[string][]byte`) is embedded as the concrete instance;
* a `context.Context` is modelled by whether its done-channel fires before the
  storage goroutine finishes (`cancelled`) plus the value of `ctx.Err()`;
  the goroutine performing the storage call always runs to completion, so each
  operation threads the client state through the call regardless of cancellation,
  exactly like the fire-and-forget goroutine in the source;
* Go byte slices are `List Nat`, and Go strings are Lean strings (the DSN
  grammar and keys are ASCII, where Go's byte indexing and Lean's character
  indexing agree);
* `url.Parse` is Go standard library, outside this repository: the parser is
  embedded from the line after it, over a `URL` record of scheme, userinfo,
  hostname and path;
* Go runtime panics (index out of range, slice bounds out of range) are made
  explicit as a `crash` result constructor.
-/

namespace S3cache

/-- Error type of the AWS SDK as seen by `s3cache.go`: either an
`awserr.RequestFailure` carrying an HTTP status code, or any other error. -/
inductive AwsErr
| requestFailure (statusCode : Nat) (msg : String)
| other (msg : String)
deriving DecidableEq

/-- Value of `ctx.Err()` once a context is done. -/
inductive CtxErr
| canceled
| deadlineExceeded
deriving DecidableEq

/-- A caller context: `cancelled` is true when the context's done channel fires
before the storage goroutine closes `done` (the `select` then takes the
`ctx.Done()` branch), and `ctxErr` is the value of `ctx.Err()`. -/
structure Ctx where
  cancelled : Bool
  ctxErr : CtxErr
deriving DecidableEq

/-- Errors returned by the cache operations: the autocert cache-miss sentinel
`autocert.ErrCacheMiss`, a context cancellation error, or a storage error
passed through. -/
inductive OpErr
| cacheMiss
| fromCtx (e : CtxErr)
| aws (e : AwsErr)
deriving DecidableEq

/-- `s3.GetObjectInput` (the fields `s3cache.go` sets). -/
structure GetObjectInput where
  bucket : String
  key : String
deriving DecidableEq

/-- `s3.PutObjectInput` (the fields `s3cache.go` sets). -/
structure PutObjectInput where
  bucket : String
  key : String
  body : List Nat
  serverSideEncryption : Option String
deriving DecidableEq

/-- `s3.DeleteObjectInput` (the fields `s3cache.go` sets). -/
structure DeleteObjectInput where
  bucket : String
  key : String
deriving DecidableEq

/-- The storage collaborator (`s3iface.S3API` restricted to the three calls the
adapter makes), over an explicit client-side state `σ`. `getObject` returns the
fully read body bytes (folding in `ioutil.ReadAll`). -/
structure S3API (σ : Type) where
  getObject : GetObjectInput → σ → Except AwsErr (List Nat) × σ
  putObject : PutObjectInput → σ → Except AwsErr Unit × σ
  deleteObject : DeleteObjectInput → σ → Except AwsErr Unit × σ

/-- The `Cache` struct: bucket name and key prefix. The `s3` handle is passed
explicitly as an `S3API` with its state, and the logger is observational only. -/
structure Cache where
  bucket : String
  pfx : String
deriving DecidableEq

/-- `Cache.get`: one `GetObject` call with the cache's bucket and the given
(already fully-qualified) key. -/
def Cache.get {σ : Type} (c : Cache) (api : S3API σ) (key : String) (s : σ) :
    Except AwsErr (List Nat) × σ :=
  api.getObject { bucket := c.bucket, key := key } s

/-- `Cache.Get`: qualifies the key with the prefix, runs the storage read in a
goroutine (which always completes, hence the state of the call is threaded
through unconditionally), races it against the context, and translates a
404 `RequestFailure` into the cache-miss sentinel. -/
def Cache.Get {σ : Type} (c : Cache) (api : S3API σ) (ctx : Ctx) (key : String)
    (s : σ) : Except OpErr (List Nat) × σ :=
  let key := c.pfx ++ key
  let r := c.get api key s
  if ctx.cancelled then (Except.error (OpErr.fromCtx ctx.ctxErr), r.2)
  else
    match r.1 with
    | Except.error (AwsErr.requestFailure code m) =>
        if code == 404 then (Except.error OpErr.cacheMiss, r.2)
        else (Except.error (OpErr.aws (AwsErr.requestFailure code m)), r.2)
    | Except.error e => (Except.error (OpErr.aws e), r.2)
    | Except.ok data => (Except.ok data, r.2)

/-- `Cache.put`: one `PutObject` call; the request always carries
`ServerSideEncryption: "AES256"`. -/
def Cache.put {σ : Type} (c : Cache) (api : S3API σ) (key : String)
    (data : List Nat) (s : σ) : Except AwsErr Unit × σ :=
  api.putObject
    { bucket := c.bucket, key := key, body := data,
      serverSideEncryption := some "AES256" } s

/-- `Cache.Put`: qualifies the key, runs the storage write in a goroutine
(always completes), races it against the context, and otherwise returns the
storage error verbatim (`none` models a nil error). -/
def Cache.Put {σ : Type} (c : Cache) (api : S3API σ) (ctx : Ctx) (key : String)
    (data : List Nat) (s : σ) : Option OpErr × σ :=
  let key := c.pfx ++ key
  let r := c.put api key data s
  if ctx.cancelled then (some (OpErr.fromCtx ctx.ctxErr), r.2)
  else
    match r.1 with
    | Except.error e => (some (OpErr.aws e), r.2)
    | Except.ok _ => (none, r.2)

/-- `Cache.delete`: one `DeleteObject` call. -/
def Cache.delete {σ : Type} (c : Cache) (api : S3API σ) (key : String) (s : σ) :
    Except AwsErr Unit × σ :=
  api.deleteObject { bucket := c.bucket, key := key } s

/-- `Cache.Delete`: qualifies the key, runs the storage delete in a goroutine
(always completes), races it against the context. -/
def Cache.Delete {σ : Type} (c : Cache) (api : S3API σ) (ctx : Ctx)
    (key : String) (s : σ) : Option OpErr × σ :=
  let key := c.pfx ++ key
  let r := c.delete api key s
  if ctx.cancelled then (some (OpErr.fromCtx ctx.ctxErr), r.2)
  else
    match r.1 with
    | Except.error e => (some (OpErr.aws e), r.2)
    | Except.ok _ => (none, r.2)

/-- State of the repository's test double `testS3`: a `map[string][]byte`. -/
def Map : Type := String → Option (List Nat)

/-- The repository's `testS3` storage double from `s3cache_test.go`:
`GetObject` returns a 404 `RequestFailure` for an absent key, `PutObject`
stores the body under the key, `DeleteObject` removes the key. It ignores the
bucket, as the test double does. -/
def testS3 : S3API Map where
  getObject inp s :=
    match s inp.key with
    | some b => (Except.ok b, s)
    | none => (Except.error (AwsErr.requestFailure 404 ""), s)
  putObject inp s :=
    (Except.ok (), fun k => if k = inp.key then some inp.body else s k)
  deleteObject inp s :=
    (Except.ok (), fun k => if k = inp.key then none else s k)

/-- An instrumented storage collaborator that records the key of every request
it receives, to observe which fully-qualified key the adapter presents. -/
def keyRecorder : S3API (List String) where
  getObject inp s := (Except.error (AwsErr.other "recorded"), s ++ [inp.key])
  putObject inp s := (Except.ok (), s ++ [inp.key])
  deleteObject inp s := (Except.ok (), s ++ [inp.key])

/-- An instrumented storage collaborator that records every full `PutObject`
request it receives. -/
def putRecorder : S3API (List PutObjectInput) where
  getObject _ s := (Except.error (AwsErr.other "recorded"), s)
  putObject inp s := (Except.ok (), s ++ [inp])
  deleteObject _ s := (Except.ok (), s)

/-- Go's `strings.TrimRight(s, "/")` on the character list: drop every
trailing `'/'`. -/
def trimRightSlash (l : List Char) : List Char :=
  (l.reverse.dropWhile (fun c => c = '/')).reverse

/-- The `KeyPrefix` option of `s3cache.go`: it sets the cache's key prefix to
`strings.TrimRight(prefix, "/") + "/"`. -/
def KeyPfx (p : String) : String :=
  String.mk (trimRightSlash p.toList) ++ "/"

/-- Go's `strings.Split(s, ".")` on the character list: split on every `'.'`;
the result always has at least one part. -/
def splitOnDot : List Char → List (List Char)
  | [] => [[]]
  | c :: rest =>
      if c = '.' then [] :: splitOnDot rest
      else
        match splitOnDot rest with
        | [] => [[c]]
        | h :: t => (c :: h) :: t

/-- Go's `strings.Join(parts, ".")` on character lists. -/
def joinDot : List (List Char) → List Char
  | [] => []
  | [x] => x
  | x :: rest => x ++ '.' :: joinDot rest

/-- Go's `strings.ToLower` (ASCII inputs). -/
def goToLower (s : String) : String :=
  String.mk (s.toList.map Char.toLower)

/-- A parsed URL as `url.Parse` (Go standard library, external to this
repository) hands it to `parseS3DSN`: scheme, optional userinfo
(username, optional password), hostname (port already stripped), path. -/
structure URL where
  scheme : String
  user : Option (String × Option String)
  hostname : String
  path : String
deriving DecidableEq

/-- The `dsnParts` struct of `s3cache.go` (field `prefix` is named `pfx`). -/
structure DsnParts where
  id : String
  secret : String
  region : String
  bucket : String
  pfx : String
deriving DecidableEq

/-- Outcome of `parseS3DSN`: a parts value, a returned error, or a Go runtime
panic (`crash`) made explicit. -/
inductive ParseResult
| ok (p : DsnParts)
| err (msg : String)
| crash (msg : String)
deriving DecidableEq

/-- The tail of `parseS3DSN`: `rtn.prefix = u.Path`, and when no bucket was
derived from the host, `slash := strings.Index(rtn.prefix[1:], "/")`,
`rtn.bucket = (rtn.prefix[1:])[:slash]`, `rtn.prefix = rtn.prefix[slash+1:]`.
Go panics when the path is empty (`prefix[1:]` out of range) and when
`strings.Index` returns `-1` (slicing with a negative bound). -/
def finishPath (id secret region bucket path : String) : ParseResult :=
  if bucket.toList.length = 0 then
    if path.toList.length < 1 then ParseResult.crash "slice bounds out of range"
    else
      match (path.toList.drop 1).findIdx? (fun c => c = '/') with
      | none => ParseResult.crash "slice bounds out of range"
      | some slash =>
          ParseResult.ok
            { id := id, secret := secret, region := region,
              bucket := String.mk ((path.toList.drop 1).take slash),
              pfx := String.mk (path.toList.drop (slash + 1)) }
  else
    ParseResult.ok
      { id := id, secret := secret, region := region, bucket := bucket,
        pfx := path }

/-- The bucket-in-domain step of `parseS3DSN`: when more than one label
stands before the root domain (`len(hparts[:len(hparts)-2]) > 1`), the bucket
is `strings.Join(hparts[:len(hparts)-3], ".")`. -/
def bucketFromDomain (hparts : List (List Char)) : String :=
  if 1 < hparts.length - 2 then
    String.mk (joinDot (hparts.take (hparts.length - 3)))
  else ""

/-- `parseS3DSN` from `s3cache.go`, starting after `url.Parse`. The host is
split on `"."`; note `strings.Split` always returns at least one part, so the
one-label and many-label branches are exhaustive. When the host's last two
labels are `amazonaws.com`, the code reads `hparts[len(hparts)-3]`, which for a
two-label host is index `-1`: a Go runtime panic, the explicit `crash` case. -/
def parseS3DSN (u : URL) : ParseResult :=
  if goToLower u.scheme ≠ "s3" then ParseResult.err "expecting a s3:// scheme"
  else
    let id := match u.user with | some (name, _) => name | none => ""
    let secret := match u.user with | some (_, some pw) => pw | _ => ""
    let hparts := splitOnDot u.hostname.toList
    let n := hparts.length
    if n = 1 then
      finishPath id secret "us-east-1" (String.mk (hparts.getD 0 [])) u.path
    else
      if joinDot (hparts.drop (n - 2)) ≠ "amazonaws.com".toList then
        finishPath id secret "us-east-1" u.hostname u.path
      else if n = 2 then
        ParseResult.crash "index out of range"
      else
        let regionLabel := hparts.getD (n - 3) []
        if regionLabel = "s3".toList then
          finishPath id secret "us-east-1" (bucketFromDomain hparts) u.path
        else
          if 3 < regionLabel.length ∧ regionLabel.take 3 = "s3-".toList then
            finishPath id secret (String.mk (regionLabel.drop 3))
              (bucketFromDomain hparts) u.path
          else
            ParseResult.err "the region doesn't appear to be correct"

/-- The third-from-the-end label of a host, `hparts[len(hparts)-3]`. -/
def thirdLabel (host : String) : List Char :=
  (splitOnDot host.toList).getD ((splitOnDot host.toList).length - 3) []

/-- Outcome of `NewDSN`: a constructed `Cache`, an error, or a propagated
panic. -/
inductive NewResult
| ok (c : Cache)
| err (msg : String)
| crash (msg : String)
deriving DecidableEq

/-- `NewDSN` from `s3cache.go`: parse the DSN, wrapping a parse error as
`"parsing DSN: %v"`; on success build the cache through `New` with the
`UserPass` and `KeyPrefix` options derived from the parts (the AWS session is
external and its creation is not a property of this repository, so the model's
`New` always succeeds). -/
def NewDSN (u : URL) : NewResult :=
  match parseS3DSN u with
  | ParseResult.err m => NewResult.err ("parsing DSN: " ++ m)
  | ParseResult.crash m => NewResult.crash m
  | ParseResult.ok p => NewResult.ok { bucket := p.bucket, pfx := KeyPfx p.pfx }

/-! Helper lemmas shared by the claim theorems. -/

/-- The head of `dropWhile p l` does not satisfy `p`. -/
theorem head_dropWhile_false {α : Type} (p : α → Bool) (l : List α) :
    ∀ x, (l.dropWhile p).head? = some x → p x = false := by
  induction l with
  | nil => intro x hx; simp [List.dropWhile] at hx
  | cons a t ih =>
      intro x hx
      by_cases ha : p a
      · exact ih x (by simpa [List.dropWhile, ha] using hx)
      · have : a = x := by
          simpa [List.dropWhile, ha] using hx
        subst this
        simpa using ha

/-- The last character surviving `trimRightSlash` is not a separator. -/
theorem trimRightSlash_getLast (l : List Char) :
    ∀ ch, (trimRightSlash l).getLast? = some ch → ch ≠ '/' := by
  intro ch hch
  have hh : (l.reverse.dropWhile (fun c => c = '/')).head? = some ch := by
    simpa [trimRightSlash, List.getLast?_reverse] using hch
  have := head_dropWhile_false (fun c => c = '/') l.reverse ch hh
  simpa using this

/-- When `finishPath` succeeds, the region of the parts is the region it was
given. -/
theorem finishPath_region (id secret region bucket path : String) (p : DsnParts)
    (h : finishPath id secret region bucket path = ParseResult.ok p) :
    p.region = region := by
  unfold finishPath at h
  split at h
  · split at h
    · exact absurd h (by simp)
    · split at h
      · exact absurd h (by simp)
      · cases h; rfl
  · cases h; rfl

/-! Claim theorems. -/

/-- C5: every write issued by `Put` carries the server-side-encryption
directive `"AES256"` in the storage request, for every cache, context, key and
payload, unconditionally: observed through a collaborator recording the full
`PutObject` request. -/
theorem putAlwaysRequestsEncryption (c : Cache) (ctx : Ctx) (key : String)
    (data : List Nat) (s : List PutObjectInput) :
    (Cache.Put c putRecorder ctx key data s).2
      = s ++ [{ bucket := c.bucket, key := c.pfx ++ key, body := data,
                serverSideEncryption := some "AES256" }] := by
  by_cases hb : ctx.cancelled <;>
    simp [Cache.Put, Cache.put, putRecorder, hb]

/-- The DSN `s3://s3.amazonaws.com/` after `url.Parse`: no host-derived
bucket, path exactly the separator. -/
def c7url : URL :=
  { scheme := "s3", user := none, hostname := "s3.amazonaws.com", path := "/" }

/-- C7 (code evaluation): on a DSN whose bucket must come from the path but
whose path is exactly `"/"`, `parseS3DSN` does not return a parse error: it
hits `strings.Index = -1` and the slice `(prefix[1:])[:-1]` panics, so `NewDSN`
crashes instead of failing cleanly. -/
theorem emptyDerivableBucketCrashes :
    parseS3DSN c7url = ParseResult.crash "slice bounds out of range"
    ∧ NewDSN c7url = NewResult.crash "slice bounds out of range" := by
  constructor <;> rfl

/-- The DSN `s3://amazonaws.com/bucket/key` after `url.Parse`: the host is
exactly the two root-domain labels. -/
def c10url : URL :=
  { scheme := "s3", user := none, hostname := "amazonaws.com",
    path := "/bucket/key" }

/-- C10 (code evaluation): on a host equal to the bare root domain
`amazonaws.com`, `parseS3DSN` reads `hparts[len(hparts)-3]`, i.e. index `-1`:
a runtime panic rather than a parse error, and `NewDSN` crashes. -/
theorem rootDomainHostCrashes :
    parseS3DSN c10url = ParseResult.crash "index out of range"
    ∧ NewDSN c10url = NewResult.crash "index out of range" := by
  constructor <;> rfl

/-- C9: every DSN whose scheme does not lower-case to `"s3"` is rejected by
`parseS3DSN` with the scheme parse error, and `NewDSN` returns an error, never
a `Cache`. -/
theorem badSchemeRejected (u : URL) (h : goToLower u.scheme ≠ "s3") :
    parseS3DSN u = ParseResult.err "expecting a s3:// scheme"
    ∧ NewDSN u = NewResult.err "parsing DSN: expecting a s3:// scheme" := by
  have hp : parseS3DSN u = ParseResult.err "expecting a s3:// scheme" := by
    unfold parseS3DSN
    rw [if_pos h]
  refine ⟨hp, ?_⟩
  unfold NewDSN
  rw [hp]
  rfl

/-- C1: when the storage read reports a request failure with the not-found
status 404, `Get` returns the cache-miss sentinel; a request failure with any
other status, and any non-request-failure error, is returned unchanged; and
neither `Put` nor `Delete` ever returns the cache-miss sentinel, for any
storage collaborator, state and context. -/
theorem cacheMissOnlyFromGetNotFound {σ : Type} (api : S3API σ) (c : Cache)
    (ctx : Ctx) (s : σ) (key : String) (hc : ctx.cancelled = false) :
    (∀ m, (Cache.get c api (c.pfx ++ key) s).1
        = Except.error (AwsErr.requestFailure 404 m) →
      (Cache.Get c api ctx key s).1 = Except.error OpErr.cacheMiss)
    ∧ (∀ code m, code ≠ 404 →
        (Cache.get c api (c.pfx ++ key) s).1
          = Except.error (AwsErr.requestFailure code m) →
        (Cache.Get c api ctx key s).1
          = Except.error (OpErr.aws (AwsErr.requestFailure code m)))
    ∧ (∀ m, (Cache.get c api (c.pfx ++ key) s).1
          = Except.error (AwsErr.other m) →
        (Cache.Get c api ctx key s).1
          = Except.error (OpErr.aws (AwsErr.other m)))
    ∧ (∀ (ctx2 : Ctx) (data : List Nat) (s2 : σ),
        (Cache.Put c api ctx2 key data s2).1 ≠ some OpErr.cacheMiss)
    ∧ (∀ (ctx2 : Ctx) (s2 : σ),
        (Cache.Delete c api ctx2 key s2).1 ≠ some OpErr.cacheMiss) := by
  refine ⟨?_, ?_, ?_, ?_, ?_⟩
  · intro m hm
    simp only [Cache.Get, hc]
    rw [hm]
    simp
  · intro code m hne hm
    simp only [Cache.Get, hc]
    rw [hm]
    simp [hne]
  · intro m hm
    simp only [Cache.Get, hc]
    rw [hm]
    simp
  · intro ctx2 data s2
    simp only [Cache.Put]
    by_cases hb : ctx2.cancelled
    · simp [hb]
    · simp only [hb]
      cases hp : (Cache.put c api (c.pfx ++ key) data s2).1 with
      | error e => simp [hp]
      | ok v => simp [hp]
  · intro ctx2 s2
    simp only [Cache.Delete]
    by_cases hb : ctx2.cancelled
    · simp [hb]
    · simp only [hb]
      cases hp : (Cache.delete c api (c.pfx ++ key) s2).1 with
      | error e => simp [hp]
      | ok v => simp [hp]

/-- Witness for C1: reading an absent key from the test double yields the
cache-miss sentinel. -/
theorem cacheMissOnlyFromGetNotFoundWitness :
    (Cache.Get { bucket := "bucket", pfx := "/" } testS3
        { cancelled := false, ctxErr := CtxErr.canceled } "nonexistent"
        (fun _ => none)).1
      = Except.error OpErr.cacheMiss := by
  have h := cacheMissOnlyFromGetNotFound testS3
      { bucket := "bucket", pfx := "/" }
      { cancelled := false, ctxErr := CtxErr.canceled }
      (fun _ => none) "nonexistent" rfl
  exact h.1 "" rfl

/-- C2: a `Put` through an uncancelled context succeeds, and a following `Get`
of the same key through an uncancelled context returns exactly the stored
bytes, over the repository's storage model, for every cache, key, payload and
prior state. -/
theorem putThenGetRoundTrip (c : Cache) (ctx1 ctx2 : Ctx) (key : String)
    (data : List Nat) (s : Map) (h1 : ctx1.cancelled = false)
    (h2 : ctx2.cancelled = false) :
    (Cache.Put c testS3 ctx1 key data s).1 = none
    ∧ (Cache.Get c testS3 ctx2 key (Cache.Put c testS3 ctx1 key data s).2).1
        = Except.ok data := by
  constructor
  · simp [Cache.Put, Cache.put, testS3, h1]
  · simp [Cache.Put, Cache.Get, Cache.put, Cache.get, testS3, h1, h2]

/-- Witness for C2 at concrete inputs, mirroring `TestCache`. -/
theorem putThenGetRoundTripWitness :
    (Cache.Put { bucket := "b", pfx := "/" } testS3
        { cancelled := false, ctxErr := CtxErr.canceled } "dummy" [1]
        (fun _ => none)).1 = none
    ∧ (Cache.Get { bucket := "b", pfx := "/" } testS3
        { cancelled := false, ctxErr := CtxErr.canceled } "dummy"
        (Cache.Put { bucket := "b", pfx := "/" } testS3
          { cancelled := false, ctxErr := CtxErr.canceled } "dummy" [1]
          (fun _ => none)).2).1
      = Except.ok [1] :=
  putThenGetRoundTrip { bucket := "b", pfx := "/" }
    { cancelled := false, ctxErr := CtxErr.canceled }
    { cancelled := false, ctxErr := CtxErr.canceled } "dummy" [1]
    (fun _ => none) rfl rfl

/-- C3: a `Delete` through an uncancelled context succeeds for every prior
state, present key or not, and a following `Get` of the same key returns the
cache-miss sentinel. -/
theorem deleteThenGetMisses (c : Cache) (ctx1 ctx2 : Ctx) (key : String)
    (s : Map) (h1 : ctx1.cancelled = false) (h2 : ctx2.cancelled = false) :
    (Cache.Delete c testS3 ctx1 key s).1 = none
    ∧ (Cache.Get c testS3 ctx2 key (Cache.Delete c testS3 ctx1 key s).2).1
        = Except.error OpErr.cacheMiss := by
  constructor
  · simp [Cache.Delete, Cache.delete, testS3, h1]
  · simp [Cache.Delete, Cache.Get, Cache.delete, Cache.get, testS3, h1, h2]

/-- Witness for C3, deleting a key that is present. -/
theorem deleteThenGetMissesWitness :
    (Cache.Delete { bucket := "b", pfx := "/" } testS3
        { cancelled := false, ctxErr := CtxErr.canceled } "dummy"
        (fun k => if k = "/dummy" then some [1] else none)).1 = none
    ∧ (Cache.Get { bucket := "b", pfx := "/" } testS3
        { cancelled := false, ctxErr := CtxErr.canceled } "dummy"
        (Cache.Delete { bucket := "b", pfx := "/" } testS3
          { cancelled := false, ctxErr := CtxErr.canceled } "dummy"
          (fun k => if k = "/dummy" then some [1] else none)).2).1
      = Except.error OpErr.cacheMiss :=
  deleteThenGetMisses { bucket := "b", pfx := "/" }
    { cancelled := false, ctxErr := CtxErr.canceled }
    { cancelled := false, ctxErr := CtxErr.canceled } "dummy"
    (fun k => if k = "/dummy" then some [1] else none) rfl rfl

/-- C4: every operation presents exactly `pfx ++ key` to the storage
collaborator (observed through a key-recording collaborator), and the
`KeyPrefix` option normalizes the configured value by trimming every trailing
separator and appending exactly one, so the stored value ends in exactly one
separator. -/
theorem fullyQualifiedKeyInvariant (c : Cache) (ctx : Ctx) (key : String)
    (data : List Nat) (s : List String) (p : String) :
    (Cache.Get c keyRecorder ctx key s).2 = s ++ [c.pfx ++ key]
    ∧ (Cache.Put c keyRecorder ctx key data s).2 = s ++ [c.pfx ++ key]
    ∧ (Cache.Delete c keyRecorder ctx key s).2 = s ++ [c.pfx ++ key]
    ∧ (KeyPfx p).toList = trimRightSlash p.toList ++ ['/']
    ∧ (∀ ch, (trimRightSlash p.toList).getLast? = some ch → ch ≠ '/') := by
  refine ⟨?_, ?_, ?_, ?_, trimRightSlash_getLast p.toList⟩
  · by_cases hb : ctx.cancelled <;>
      simp [Cache.Get, Cache.get, keyRecorder, hb]
  · by_cases hb : ctx.cancelled <;>
      simp [Cache.Put, Cache.put, keyRecorder, hb]
  · by_cases hb : ctx.cancelled <;>
      simp [Cache.Delete, Cache.delete, keyRecorder, hb]
  · rfl

/-- Witness for C4, mirroring `TestCacheWithPrefix`: with prefix option value
`/path/to/certs/here`, `Put("dummy")` presents `/path/to/certs/here/dummy`. -/
theorem fullyQualifiedKeyInvariantWitness :
    (Cache.Put { bucket := "my-bucket", pfx := KeyPfx "/path/to/certs/here" }
        keyRecorder { cancelled := false, ctxErr := CtxErr.canceled } "dummy"
        [1] []).2
      = ["/path/to/certs/here/dummy"] ∧ ('e' : Char) ≠ '/' := by
  have h := fullyQualifiedKeyInvariant
      { bucket := "my-bucket", pfx := KeyPfx "/path/to/certs/here" }
      { cancelled := false, ctxErr := CtxErr.canceled } "dummy" [1] []
      "/path/to/certs/here"
  refine ⟨?_, h.2.2.2.2 'e' (by decide)⟩
  rw [h.2.1]
  decide

/-- C6: when the context is cancelled before the storage call completes, each
operation returns the context's error (with no data for `Get`), while the
storage call still runs to completion: the resulting collaborator state is
exactly the state after the full call, so an issued write or delete still
takes effect. -/
theorem cancelledOperationSemantics {σ : Type} (api : S3API σ) (c : Cache)
    (ctx : Ctx) (key : String) (data : List Nat) (s : σ)
    (h : ctx.cancelled = true) :
    (Cache.Get c api ctx key s).1 = Except.error (OpErr.fromCtx ctx.ctxErr)
    ∧ (Cache.Get c api ctx key s).2 = (Cache.get c api (c.pfx ++ key) s).2
    ∧ (Cache.Put c api ctx key data s).1 = some (OpErr.fromCtx ctx.ctxErr)
    ∧ (Cache.Put c api ctx key data s).2
        = (Cache.put c api (c.pfx ++ key) data s).2
    ∧ (Cache.Delete c api ctx key s).1 = some (OpErr.fromCtx ctx.ctxErr)
    ∧ (Cache.Delete c api ctx key s).2
        = (Cache.delete c api (c.pfx ++ key) s).2 := by
  refine ⟨?_, ?_, ?_, ?_, ?_, ?_⟩ <;>
    simp [Cache.Get, Cache.Put, Cache.Delete, h]

/-- Witness for C6: a cancelled `Put` reports the cancellation error, yet the
written value is present in the resulting storage state. -/
theorem cancelledOperationSemanticsWitness :
    (Cache.Put { bucket := "b", pfx := "/" } testS3
        { cancelled := true, ctxErr := CtxErr.canceled } "dummy" [1]
        (fun _ => none)).1
      = some (OpErr.fromCtx CtxErr.canceled)
    ∧ ((Cache.Put { bucket := "b", pfx := "/" } testS3
        { cancelled := true, ctxErr := CtxErr.canceled } "dummy" [1]
        (fun _ => none)).2) "/dummy" = some [1] := by
  have h := cancelledOperationSemantics testS3 { bucket := "b", pfx := "/" }
      { cancelled := true, ctxErr := CtxErr.canceled } "dummy" [1]
      (fun _ => none) rfl
  refine ⟨h.2.2.1, ?_⟩
  rw [h.2.2.2.1]
  decide

/-- C8: for every DSN whose host ends in the provider root domain with at
least three labels, the third-from-the-end label decides the region: the bare
service label `s3` keeps the default `us-east-1`; a label of shape
`s3-<region>` (longer than the three marker characters, which are `s3-`)
yields `<region>`, the label with the marker dropped; any other label makes
`parseS3DSN` fail with the region parse error. -/
theorem regionLabelRules (u : URL) (hs : goToLower u.scheme = "s3")
    (hn : 3 ≤ (splitOnDot u.hostname.toList).length)
    (hd : joinDot ((splitOnDot u.hostname.toList).drop
          ((splitOnDot u.hostname.toList).length - 2))
        = "amazonaws.com".toList) :
    (thirdLabel u.hostname = "s3".toList →
      ∀ p, parseS3DSN u = ParseResult.ok p → p.region = "us-east-1")
    ∧ (thirdLabel u.hostname ≠ "s3".toList →
        3 < (thirdLabel u.hostname).length →
        (thirdLabel u.hostname).take 3 = "s3-".toList →
        ∀ p, parseS3DSN u = ParseResult.ok p →
          p.region = String.mk ((thirdLabel u.hostname).drop 3))
    ∧ (thirdLabel u.hostname ≠ "s3".toList →
        ¬ (3 < (thirdLabel u.hostname).length
            ∧ (thirdLabel u.hostname).take 3 = "s3-".toList) →
        parseS3DSN u
          = ParseResult.err "the region doesn't appear to be correct") := by
  have hs' : ¬ goToLower u.scheme ≠ "s3" := fun hcon => hcon hs
  have hd' : ¬ joinDot ((splitOnDot u.hostname.toList).drop
      ((splitOnDot u.hostname.toList).length - 2)) ≠ "amazonaws.com".toList :=
    fun hcon => hcon hd
  have hn1 : ¬ (splitOnDot u.hostname.toList).length = 1 := by omega
  have hn2 : ¬ (splitOnDot u.hostname.toList).length = 2 := by omega
  refine ⟨?_, ?_, ?_⟩
  · intro hl p hp
    unfold thirdLabel at hl
    unfold parseS3DSN at hp
    rw [if_neg hs'] at hp
    simp only [] at hp
    rw [if_neg hn1, if_neg hd', if_neg hn2, if_pos hl] at hp
    exact finishPath_region _ _ _ _ _ p hp
  · intro hl hlen htake p hp
    unfold thirdLabel at hl hlen htake ⊢
    unfold parseS3DSN at hp
    rw [if_neg hs'] at hp
    simp only [] at hp
    rw [if_neg hn1, if_neg hd', if_neg hn2, if_neg hl,
      if_pos (And.intro hlen htake)] at hp
    exact finishPath_region _ _ _ _ _ p hp
  · intro hl hcond
    unfold thirdLabel at hl hcond
    unfold parseS3DSN
    rw [if_neg hs']
    simp only []
    rw [if_neg hn1, if_neg hd', if_neg hn2, if_neg hl, if_neg hcond]

/-- Witness for C8: a malformed region label (`foo.amazonaws.com`) makes the
parse fail with the region error. -/
theorem regionLabelRulesWitness :
    parseS3DSN { scheme := "s3", user := none,
                 hostname := "foo.amazonaws.com", path := "/b/k" }
      = ParseResult.err "the region doesn't appear to be correct" := by
  have h := regionLabelRules
      { scheme := "s3", user := none, hostname := "foo.amazonaws.com",
        path := "/b/k" } (by decide) (by decide) (by decide)
  exact h.2.2 (by decide) (by decide)

/-- Witness for C9 at the concrete DSN `http://example/dev/test/path`. -/
theorem badSchemeRejectedWitness :
    parseS3DSN { scheme := "http", user := none, hostname := "example",
                 path := "/dev/test/path" }
      = ParseResult.err "expecting a s3:// scheme"
    ∧ NewDSN { scheme := "http", user := none, hostname := "example",
               path := "/dev/test/path" }
      = NewResult.err "parsing DSN: expecting a s3:// scheme" :=
  badSchemeRejected
    { scheme := "http", user := none, hostname := "example",
      path := "/dev/test/path" } (by decide)

end S3cache
